import Mathlib

/-
  Verification of the particle-simulation core of `src/main.c`.

  The simulation state is the global array `particles`; each tick is the
  body of the outer `for` loop at lines 150-218 of `main.c`.  Floating
  point `float` arithmetic is modelled by exact rational arithmetic; the
  transcendental `sqrt` from `math.h` is kept abstract as a function
  parameter `sq : ℚ → ℚ`, so every theorem states exactly which values of
  `sq` it relies on.  The domain constants `WIDTH`/`HEIGHT` are C macros;
  they are threaded through the definitions as parameters `W H`, with the
  program's actual values given by the constants below.
-/

namespace Life

/-- `#define WIDTH 1000` in main.c. -/
def WIDTH : ℚ := 1000

/-- `#define HEIGHT 1000` in main.c. -/
def HEIGHT : ℚ := 1000

/-- `#define NUM_PARTICLES 600` in main.c. -/
def NUM_PARTICLES : ℕ := 600

/-- `#define COEFFICIENT 5 * 1e-3` in main.c. -/
def COEFFICIENT : ℚ := 5 * 1e-3

/-- `#define SQUARED_RADIUS_MIN 100` in main.c. -/
def SQUARED_RADIUS_MIN : ℚ := 100

/-- The `particle` struct of main.c (lines 17-22): a type tag and a 2D
position. -/
structure Particle where
  type : ℕ
  x : ℚ
  y : ℚ
deriving Repr, DecidableEq, Inhabited

/-- The nested ternary at lines 160 and 166 of main.c, selecting between
the direct delta `n`, the `+WIDTH` candidate `jb` and the `-WIDTH`
candidate `ib`:
`n*n > jb*jb ? (jb*jb > ib*ib ? ib : jb) : (n*n > ib*ib ? ib : n)`. -/
def sel (n jb ib : ℚ) : ℚ :=
  if n * n > jb * jb then (if jb * jb > ib * ib then ib else jb)
  else (if n * n > ib * ib then ib else n)

/-- `x_pos` at line 160 of main.c: the selected toroidal x-delta between
particle `a` (the accumulating particle `i`) and particle `b` (`j`). -/
def xPos (W : ℚ) (a b : Particle) : ℚ :=
  sel (a.x - b.x) (a.x - b.x + W) (a.x - b.x - W)

/-- `y_pos` at line 166 of main.c.  Note the source adds and subtracts
`WIDTH` (not `HEIGHT`) on the y axis as well, which is faithfully kept
here (`W` in all three candidates). -/
def yPos (W : ℚ) (a b : Particle) : ℚ :=
  sel (a.y - b.y) (a.y - b.y + W) (a.y - b.y - W)

/-- `r_squared = x_squared + y_squared` at line 169 of main.c. -/
def rSquared (W : ℚ) (a b : Particle) : ℚ :=
  xPos W a b * xPos W a b + yPos W a b * yPos W a b

/-- The if/else chain at lines 173-202 of main.c computing the signed
type-pair coefficient: it starts from `-1e4` and multiplies by `±1`
according to the ordered pair of types. -/
def coefficient (ti tj : ℕ) : ℚ :=
  let c : ℚ := -1e4
  if ti = 0 ∧ tj = 0 then c * (-1)
  else if ti = tj then c * 1
  else if ti = 0 ∧ tj = 1 then c * 1
  else if ti = 1 ∧ tj = 0 then c * (-1)
  else if ti = 0 ∧ tj = 2 then c * (-1)
  else if ti = 2 ∧ tj = 0 then c * 1
  else if ti = 1 ∧ tj = 2 then c * 1
  else if ti = 2 ∧ tj = 1 then c * (-1)
  else 0

/-- One iteration of the inner `j` loop (lines 157-207 of main.c) for a
fixed pair: the pair's contribution to `(new_x, new_y)` of particle `a`
from particle `b`.  Line 204 is the attraction cutoff
`if(coefficient < 0.0 && r_squared < SQUARED_RADIUS_MIN) continue;`,
lines 206-207 are the accumulation
`coefficient * speed * x_pos / sqrt(r_squared)` with
`speed = COEFFICIENT / r_squared` (line 171). -/
def pairTerm (W : ℚ) (sq : ℚ → ℚ) (a b : Particle) : ℚ × ℚ :=
  let x_pos := xPos W a b
  let y_pos := yPos W a b
  let r_squared := rSquared W a b
  let speed := COEFFICIENT / r_squared
  let c := coefficient a.type b.type
  if c < 0 ∧ r_squared < SQUARED_RADIUS_MIN then (0, 0)
  else (c * speed * x_pos / sq r_squared, c * speed * y_pos / sq r_squared)

/-- The inner `j` loop of main.c (lines 151-208): starting from
`new_x = 0, new_y = 0` it sums the pair terms over all `j`, skipping
`j == i`.  `ps` is the current state of the `particles` array. -/
def netDisp (W : ℚ) (sq : ℚ → ℚ) (ps : List Particle) (i : ℕ) : ℚ × ℚ :=
  (List.range ps.length).foldl
    (fun acc j =>
      if j = i then acc
      else
        let t := pairTerm W sq (ps.getD i default) (ps.getD j default)
        (acc.1 + t.1, acc.2 + t.2))
    (0, 0)

/-- The boundary correction at lines 212-215 of main.c, applied to a
particle after its displacement was added.  The source subtracts `WIDTH`
in the `y > HEIGHT` branch (line 214), which is kept faithfully. -/
def wrap (W H : ℚ) (p : Particle) : Particle :=
  let x1 := if p.x > W then p.x - W else p.x
  let x2 := if x1 < 0 then x1 + W else x1
  let y1 := if p.y > H then p.y - W else p.y
  let y2 := if y1 < 0 then y1 + H else y1
  ⟨p.type, x2, y2⟩

/-- One iteration of the outer `i` loop of main.c (lines 150-218): the
displacement of particle `i` is computed from the current array, then
`particles[i]` is immediately updated and wrapped. -/
def tickStep (W H : ℚ) (sq : ℚ → ℚ) (ps : List Particle) (i : ℕ) : List Particle :=
  let d := netDisp W sq ps i
  match ps.get? i with
  | none => ps
  | some p => ps.set i (wrap W H ⟨p.type, p.x + d.1, p.y + d.2⟩)

/-- The outer loop of main.c run for the particle indices `0, …, k-1`. -/
def tickUpTo (W H : ℚ) (sq : ℚ → ℚ) (ps : List Particle) (k : ℕ) : List Particle :=
  (List.range k).foldl (tickStep W H sq) ps

/-- One full simulation tick: the outer `i` loop of main.c over the whole
array. -/
def tick (W H : ℚ) (sq : ℚ → ℚ) (ps : List Particle) : List Particle :=
  tickUpTo W H sq ps ps.length

/-- The pre-wrap value of particle `i` during a tick: its position in the
partially updated array (particles `0, …, i-1` already moved) plus its
accumulated displacement, before the boundary correction. -/
def preWrap (W H : ℚ) (sq : ℚ → ℚ) (ps : List Particle) (i : ℕ) : Particle :=
  let s := tickUpTo W H sq ps i
  let d := netDisp W sq s i
  let p := s.getD i default
  ⟨p.type, p.x + d.1, p.y + d.2⟩

/-- The update of one particle against one other particle: displacement
by the single pair term, then wrap.  `tick` on a two-particle store is
expressed with this below. -/
def stepped (W H : ℚ) (sq : ℚ → ℚ) (a b : Particle) : Particle :=
  wrap W H ⟨a.type, a.x + (pairTerm W sq a b).1, a.y + (pairTerm W sq a b).2⟩

/-- The initialization loop at lines 29-34 of main.c.  The libc PRNG is
modelled by the abstract stream `r` of successive `rand()` outputs after
`srand(42)`; the loop consumes two outputs per particle (x first) and
reduces them `% (WIDTH + 1)` resp. `% (HEIGHT + 1)`, both `1001`. -/
def initStore (r : ℕ → ℕ) : List Particle :=
  (List.range NUM_PARTICLES).map (fun i =>
    ⟨i % 3, ((r (2 * i) % 1001 : ℕ) : ℚ), ((r (2 * i + 1) % 1001 : ℕ) : ℚ)⟩)

/-- Two-pass reference semantics, modelled from the spec's words
(§4.2/§5): every particle's displacement is computed from the unmodified
pre-tick snapshot, and only then are all positions updated and wrapped. -/
def tickTwoPass (W H : ℚ) (sq : ℚ → ℚ) (ps : List Particle) : List Particle :=
  (List.range ps.length).map (fun i =>
    let d := netDisp W sq ps i
    match ps.get? i with
    | none => default
    | some p => wrap W H ⟨p.type, p.x + d.1, p.y + d.2⟩)

/-- The exact square root values needed on the two-particle scenario of
the spec's end-to-end test: `√400 = 20` and `√(25281/64) = 159/8`; both
are exact, so on every input where the simulation below evaluates it,
this function agrees with the real square root. -/
def sqExact : ℚ → ℚ :=
  fun q => if q = 400 then 20 else if q = 25281 / 64 then 159 / 8 else 0

/-! ### Structural lemmas about one tick -/

@[simp] lemma wrap_type (W H : ℚ) (p : Particle) : (wrap W H p).type = p.type := rfl

lemma getD_eq_get (ps : List Particle) (i : ℕ) (d : Particle) (h : i < ps.length) :
    ps.getD i d = ps.get ⟨i, h⟩ := by
  rw [List.getD_eq_getElem?_getD, List.getElem?_eq_getElem h]
  rfl

lemma getD_set_self (ps : List Particle) (i : ℕ) (v d : Particle) (h : i < ps.length) :
    (ps.set i v).getD i d = v := by
  rw [List.getD_eq_getElem?_getD, List.getElem?_set_eq_of_lt v h]
  rfl

lemma getD_set_ne (ps : List Particle) (i k : ℕ) (v d : Particle) (h : i ≠ k) :
    (ps.set i v).getD k d = ps.getD k d := by
  rw [List.getD_eq_getElem?_getD, List.getElem?_set_ne h, ← List.getD_eq_getElem?_getD]

lemma length_tickStep (W H : ℚ) (sq : ℚ → ℚ) (ps : List Particle) (i : ℕ) :
    (tickStep W H sq ps i).length = ps.length := by
  unfold tickStep
  cases hp : ps.get? i
  · rfl
  · simp

lemma length_foldl_tickStep (W H : ℚ) (sq : ℚ → ℚ) (l : List ℕ) (ps : List Particle) :
    (l.foldl (tickStep W H sq) ps).length = ps.length := by
  induction l generalizing ps with
  | nil => rfl
  | cons j t ih => rw [List.foldl_cons, ih, length_tickStep]

lemma length_tickUpTo (W H : ℚ) (sq : ℚ → ℚ) (ps : List Particle) (k : ℕ) :
    (tickUpTo W H sq ps k).length = ps.length :=
  length_foldl_tickStep W H sq (List.range k) ps

lemma length_tick (W H : ℚ) (sq : ℚ → ℚ) (ps : List Particle) :
    (tick W H sq ps).length = ps.length :=
  length_tickUpTo W H sq ps ps.length

lemma type_getD_tickStep (W H : ℚ) (sq : ℚ → ℚ) (ps : List Particle) (i k : ℕ) :
    ((tickStep W H sq ps i).getD k default).type = (ps.getD k default).type := by
  unfold tickStep
  cases hp : ps.get? i with
  | none => rfl
  | some p =>
    rcases eq_or_ne i k with rfl | hik
    · have hlen : i < ps.length := by
        by_contra hge
        rw [List.get?_eq_getElem?, List.getElem?_eq_none (Nat.le_of_not_lt hge)] at hp
        exact Option.noConfusion hp
      rw [getD_set_self ps i _ default hlen, wrap_type,
        getD_eq_get ps i default hlen]
      have : ps.get ⟨i, hlen⟩ = p := by
        have h2 := List.get?_eq_get hlen
        rw [hp] at h2
        exact (Option.some.inj h2).symm
      rw [this]
    · rw [getD_set_ne ps i k _ default hik]

lemma type_getD_foldl_tickStep (W H : ℚ) (sq : ℚ → ℚ) (l : List ℕ)
    (ps : List Particle) (k : ℕ) :
    ((l.foldl (tickStep W H sq) ps).getD k default).type = (ps.getD k default).type := by
  induction l generalizing ps with
  | nil => rfl
  | cons j t ih => rw [List.foldl_cons, ih, type_getD_tickStep]

lemma getD_tickStep_ne (W H : ℚ) (sq : ℚ → ℚ) (ps : List Particle) (i j : ℕ)
    (h : j ≠ i) :
    (tickStep W H sq ps j).getD i default = ps.getD i default := by
  unfold tickStep
  cases hp : ps.get? j
  · rfl
  · exact getD_set_ne ps j i _ default h

lemma getD_foldl_tickStep_of_ne (W H : ℚ) (sq : ℚ → ℚ) (l : List ℕ)
    (ps : List Particle) (i : ℕ) (hl : ∀ j ∈ l, j ≠ i) :
    (l.foldl (tickStep W H sq) ps).getD i default = ps.getD i default := by
  induction l generalizing ps with
  | nil => rfl
  | cons j t ih =>
    rw [List.foldl_cons, ih _ (fun a ha => hl a (List.mem_cons_of_mem j ha)),
      getD_tickStep_ne W H sq ps i j (hl j (List.mem_cons_self j t))]

lemma tickUpTo_succ (W H : ℚ) (sq : ℚ → ℚ) (ps : List Particle) (k : ℕ) :
    tickUpTo W H sq ps (k + 1) = tickStep W H sq (tickUpTo W H sq ps k) k := by
  unfold tickUpTo
  rw [List.range_succ, List.foldl_append]
  rfl

/-- The central structural fact about the loop at lines 150-218 of
main.c: the final value of `particles[i]` is the wrap of its position in
the *partially updated* array (particles `0, …, i-1` already moved) plus
its accumulated displacement.  Later iterations never touch entry `i`
again. -/
lemma getD_tick (W H : ℚ) (sq : ℚ → ℚ) (ps : List Particle) (i : ℕ)
    (h : i < ps.length) :
    (tick W H sq ps).getD i default = wrap W H (preWrap W H sq ps i) := by
  have h1 : i + 1 ≤ ps.length := h
  have hsplit : ps.length = (i + 1) + (ps.length - (i + 1)) :=
    (Nat.add_sub_cancel' h1).symm
  have hs : i < (tickUpTo W H sq ps i).length := by
    rw [length_tickUpTo]; exact h
  unfold tick
  conv_lhs => rw [hsplit]
  unfold tickUpTo
  rw [List.range_add, List.foldl_append]
  rw [getD_foldl_tickStep_of_ne _ _ _ _ _ i
    (by
      intro j hj
      rcases List.mem_map.1 hj with ⟨a, _, rfl⟩
      omega)]
  have hstep : (List.range (i + 1)).foldl (tickStep W H sq) ps =
      tickStep W H sq (tickUpTo W H sq ps i) i := tickUpTo_succ W H sq ps i
  rw [hstep]
  have hset := getD_set_self (tickUpTo W H sq ps i) i
    (wrap W H ⟨((tickUpTo W H sq ps i).get ⟨i, hs⟩).type,
      ((tickUpTo W H sq ps i).get ⟨i, hs⟩).x + (netDisp W sq (tickUpTo W H sq ps i) i).1,
      ((tickUpTo W H sq ps i).get ⟨i, hs⟩).y + (netDisp W sq (tickUpTo W H sq ps i) i).2⟩)
    default hs
  have hpre : preWrap W H sq ps i =
      ⟨((tickUpTo W H sq ps i).get ⟨i, hs⟩).type,
        ((tickUpTo W H sq ps i).get ⟨i, hs⟩).x + (netDisp W sq (tickUpTo W H sq ps i) i).1,
        ((tickUpTo W H sq ps i).get ⟨i, hs⟩).y + (netDisp W sq (tickUpTo W H sq ps i) i).2⟩ := by
    show (⟨((tickUpTo W H sq ps i).getD i default).type,
      ((tickUpTo W H sq ps i).getD i default).x + (netDisp W sq (tickUpTo W H sq ps i) i).1,
      ((tickUpTo W H sq ps i).getD i default).y +
        (netDisp W sq (tickUpTo W H sq ps i) i).2⟩ : Particle) = _
    rw [getD_eq_get _ _ _ hs]
  rw [hpre]
  unfold tickStep
  rw [List.get?_eq_get hs]
  exact hset

/-- The nested ternary of main.c picks, among the three candidates, the
first one (in the order direct, `+W`, `-W`) whose square is minimal. -/
lemma sel_spec (n jb ib : ℚ) :
    sel n jb ib =
      if n * n ≤ jb * jb ∧ n * n ≤ ib * ib then n
      else if jb * jb ≤ ib * ib then jb else ib := by
  unfold sel
  by_cases hnj : n * n > jb * jb
  · by_cases hji : jb * jb > ib * ib
    · rw [if_pos hnj, if_pos hji, if_neg (by push_neg; intro h; linarith),
        if_neg (not_le.mpr (by linarith))]
    · rw [if_pos hnj, if_neg hji, if_neg (by push_neg; intro h; linarith),
        if_pos (by linarith [le_of_not_lt hji])]
  · by_cases hni : n * n > ib * ib
    · rw [if_neg hnj, if_pos hni, if_neg (by push_neg; intro h; linarith),
        if_neg (not_le.mpr (by linarith [le_of_not_lt hnj]))]
    · rw [if_neg hnj, if_neg hni,
        if_pos ⟨le_of_not_lt hnj, le_of_not_lt hni⟩]

/-- A tick of a two-particle store, unfolded: the first particle is
displaced and wrapped against the second's original position, then the
second particle is displaced against the *already updated* first one. -/
lemma tick_pair (W H : ℚ) (sq : ℚ → ℚ) (p0 p1 : Particle) :
    tick W H sq [p0, p1] =
      [stepped W H sq p0 p1, stepped W H sq p1 (stepped W H sq p0 p1)] := by
  simp [tick, tickUpTo, tickStep, netDisp, stepped, List.range_succ]

/-- The boundary correction of main.c sends any coordinate that is at
most one domain size out of range into the closed interval `[0, size]`
(the program constants have `WIDTH = HEIGHT`). -/
lemma wrap_bounds (p : Particle)
    (hx1 : -WIDTH ≤ p.x) (hx2 : p.x ≤ 2 * WIDTH)
    (hy1 : -HEIGHT ≤ p.y) (hy2 : p.y ≤ 2 * HEIGHT) :
    0 ≤ (wrap WIDTH HEIGHT p).x ∧ (wrap WIDTH HEIGHT p).x ≤ WIDTH ∧
    0 ≤ (wrap WIDTH HEIGHT p).y ∧ (wrap WIDTH HEIGHT p).y ≤ HEIGHT := by
  simp only [wrap, WIDTH, HEIGHT] at *
  split_ifs <;> refine ⟨by linarith, by linarith, by linarith, by linarith⟩

/-! ### Claims -/

/-- C3: for every pair of particles and each axis independently, the
delta used in the force computation is whichever of the three candidates
`d`, `d+size`, `d-size` (with `d = pos_i - pos_j`) has the smallest
squared magnitude, ties resolved in favor of the earlier candidate in
the order direct, `+size`, `-size`; in particular for particles at
`x = 1` and `x = WIDTH - 1` the selected x delta is `2`, not
`WIDTH - 2`. -/
theorem C3_toroidal_delta :
    (∀ (W : ℚ) (a b : Particle),
      xPos W a b =
        (if (a.x - b.x) * (a.x - b.x) ≤ (a.x - b.x + W) * (a.x - b.x + W) ∧
            (a.x - b.x) * (a.x - b.x) ≤ (a.x - b.x - W) * (a.x - b.x - W) then
          a.x - b.x
        else if (a.x - b.x + W) * (a.x - b.x + W) ≤
            (a.x - b.x - W) * (a.x - b.x - W) then
          a.x - b.x + W
        else a.x - b.x - W) ∧
      yPos W a b =
        (if (a.y - b.y) * (a.y - b.y) ≤ (a.y - b.y + W) * (a.y - b.y + W) ∧
            (a.y - b.y) * (a.y - b.y) ≤ (a.y - b.y - W) * (a.y - b.y - W) then
          a.y - b.y
        else if (a.y - b.y + W) * (a.y - b.y + W) ≤
            (a.y - b.y - W) * (a.y - b.y - W) then
          a.y - b.y + W
        else a.y - b.y - W)) ∧
    xPos WIDTH ⟨0, 1, 0⟩ ⟨0, WIDTH - 1, 0⟩ = 2 := by
  refine ⟨fun W a b => ⟨sel_spec _ _ _, sel_spec _ _ _⟩, ?_⟩
  norm_num [xPos, sel, WIDTH]

/-- C4: the signed coefficient computed by the if/else chain equals the
reference table with `K = 1e4` on all nine ordered type pairs. -/
theorem C4_coefficient_table :
    coefficient 0 0 = 1e4 ∧ coefficient 1 1 = -1e4 ∧ coefficient 2 2 = -1e4 ∧
    coefficient 0 1 = -1e4 ∧ coefficient 1 0 = 1e4 ∧
    coefficient 0 2 = 1e4 ∧ coefficient 2 0 = -1e4 ∧
    coefficient 1 2 = -1e4 ∧ coefficient 2 1 = 1e4 := by
  norm_num [coefficient]

/-- C5: a pair with a negative coefficient and `r_squared` below the
minimum-radius-squared threshold (100) contributes exactly `(0, 0)`, and
a pair with non-negative coefficient is never skipped by that rule: its
contribution is always the accumulation formula of lines 206-207. -/
theorem C5_attraction_cutoff (W : ℚ) (sq : ℚ → ℚ) (a b : Particle) :
    (coefficient a.type b.type < 0 → rSquared W a b < SQUARED_RADIUS_MIN →
      pairTerm W sq a b = (0, 0)) ∧
    (0 ≤ coefficient a.type b.type →
      pairTerm W sq a b =
        (coefficient a.type b.type * (COEFFICIENT / rSquared W a b) * xPos W a b /
            sq (rSquared W a b),
          coefficient a.type b.type * (COEFFICIENT / rSquared W a b) * yPos W a b /
            sq (rSquared W a b))) := by
  constructor
  · intro hc hr
    simp only [pairTerm]
    rw [if_pos ⟨hc, hr⟩]
  · intro hc
    simp only [pairTerm]
    rw [if_neg (fun hct => absurd hct.1 (not_lt.mpr hc))]

theorem C5_witness :
    pairTerm 1000 (fun _ => 3) ⟨0, 0, 0⟩ ⟨1, 3, 0⟩ = (0, 0) ∧
    pairTerm 1000 (fun _ => 3) ⟨1, 0, 0⟩ ⟨0, 3, 0⟩ =
      (coefficient 1 0 * (COEFFICIENT / rSquared 1000 ⟨1, 0, 0⟩ ⟨0, 3, 0⟩) *
          xPos 1000 ⟨1, 0, 0⟩ ⟨0, 3, 0⟩ /
          (fun _ => (3 : ℚ)) (rSquared 1000 ⟨1, 0, 0⟩ ⟨0, 3, 0⟩),
        coefficient 1 0 * (COEFFICIENT / rSquared 1000 ⟨1, 0, 0⟩ ⟨0, 3, 0⟩) *
          yPos 1000 ⟨1, 0, 0⟩ ⟨0, 3, 0⟩ /
          (fun _ => (3 : ℚ)) (rSquared 1000 ⟨1, 0, 0⟩ ⟨0, 3, 0⟩)) :=
  ⟨(C5_attraction_cutoff 1000 (fun _ => 3) ⟨0, 0, 0⟩ ⟨1, 3, 0⟩).1
      (by norm_num [coefficient])
      (by norm_num [rSquared, xPos, yPos, sel, SQUARED_RADIUS_MIN]),
    (C5_attraction_cutoff 1000 (fun _ => 3) ⟨1, 0, 0⟩ ⟨0, 3, 0⟩).2
      (by norm_num [coefficient])⟩

/-- C6: at the failing input -- two particles of the same non-attracting
type 0 at identical positions -- the pair has `r_squared = 0` while the
cutoff guard of line 204 does *not* fire (the coefficient is
non-negative), so the division `COEFFICIENT / r_squared` at line 171 is
reached with a zero divisor; in C float arithmetic this yields `inf` and
then `inf * 0 = NaN` positions, so the code has no defined fallback. -/
theorem C6_zero_divisor_reached :
    rSquared WIDTH ⟨0, 50, 50⟩ ⟨0, 50, 50⟩ = 0 ∧
    ¬(coefficient 0 0 < 0 ∧
      rSquared WIDTH ⟨0, 50, 50⟩ ⟨0, 50, 50⟩ < SQUARED_RADIUS_MIN) := by
  norm_num [rSquared, xPos, yPos, sel, coefficient, SQUARED_RADIUS_MIN, WIDTH]

/-- C9: initialization from a fixed seed stream followed by any number
of ticks is deterministic -- equal seed streams give equal stores after
initialization and after every iterate of `tick` (the tick is a pure
function of the store and the constants). -/
theorem C9_determinism (W H : ℚ) (sq : ℚ → ℚ) (r1 r2 : ℕ → ℕ) (h : r1 = r2) :
    initStore r1 = initStore r2 ∧
    ∀ n : ℕ, (tick W H sq)^[n] (initStore r1) = (tick W H sq)^[n] (initStore r2) := by
  subst h
  exact ⟨rfl, fun _ => rfl⟩

theorem C9_witness :
    (tick WIDTH HEIGHT (fun q => q))^[3] (initStore (fun _ => 7)) =
      (tick WIDTH HEIGHT (fun q => q))^[3] (initStore (fun _ => 7)) :=
  (C9_determinism WIDTH HEIGHT (fun q => q) (fun _ => 7) (fun _ => 7) rfl).2 3

/-- C10: a tick writes only positions: the store length and every
particle's type (at every index) are unchanged. -/
theorem C10_frame (W H : ℚ) (sq : ℚ → ℚ) (ps : List Particle) :
    (tick W H sq ps).length = ps.length ∧
    ∀ i : ℕ, ((tick W H sq ps).getD i default).type = (ps.getD i default).type :=
  ⟨length_tick W H sq ps,
    fun i => type_getD_foldl_tickStep W H sq (List.range ps.length) ps i⟩

/-- C1 counterexample: the tick of main.c is *not* the two-pass
reference semantics.  On the two-particle store `(10,50)` type 0,
`(90,50)` type 1 in a 100 by 100 domain (the square-root function is
exact on every value the computation evaluates it at), the single fused
loop and the two-pass semantics produce different stores: the fused loop
lets particle 1 read particle 0's already updated position. -/
theorem C1_counterexample :
    tick 100 100 sqExact [⟨0, 10, 50⟩, ⟨1, 90, 50⟩] ≠
      tickTwoPass 100 100 sqExact [⟨0, 10, 50⟩, ⟨1, 90, 50⟩] := by
  norm_num [tick, tickUpTo, tickStep, netDisp, pairTerm, rSquared, xPos, yPos,
    sel, coefficient, wrap, sqExact, COEFFICIENT, SQUARED_RADIUS_MIN,
    tickTwoPass, List.range_succ]

/-- C1 (amended): the tick fuses the two passes per particle. Each
particle's accumulated displacement is applied (and wrapped) before the
next particle's displacement is computed: on a two-particle store the
second particle's force term reads the first particle's post-update
position, and in general the final value of particle `i` is the wrap of
its displaced position in the store where particles `0, …, i-1` have
already moved. -/
theorem C1_amended_fused_semantics :
    (∀ (W H : ℚ) (sq : ℚ → ℚ) (p0 p1 : Particle),
      tick W H sq [p0, p1] =
        [stepped W H sq p0 p1, stepped W H sq p1 (stepped W H sq p0 p1)]) ∧
    (∀ (W H : ℚ) (sq : ℚ → ℚ) (ps : List Particle) (i : ℕ), i < ps.length →
      (tick W H sq ps).getD i default = wrap W H (preWrap W H sq ps i)) :=
  ⟨tick_pair, getD_tick⟩

theorem C1_amended_witness :
    (tick 100 100 (fun _ => 1) [⟨0, 5, 5⟩]).getD 0 default =
      wrap 100 100 (preWrap 100 100 (fun _ => 1) [⟨0, 5, 5⟩] 0) :=
  C1_amended_fused_semantics.2 100 100 (fun _ => 1) [⟨0, 5, 5⟩] 0 (by norm_num)

/-- C2 counterexample: the boundary invariant is the *closed* interval,
not the half-open one.  The wrap test at line 212 is strict
(`x > WIDTH`), so a particle with `x = WIDTH` (reachable: the
initializer draws `rand() % (WIDTH + 1)`, which includes `WIDTH`) keeps
`x = WIDTH` across a tick, violating `x < WIDTH`. -/
theorem C2_counterexample :
    (tick WIDTH HEIGHT (fun q => q) [⟨0, 1000, 500⟩]).getD 0 default =
      ⟨0, 1000, 500⟩ ∧
    ¬(((tick WIDTH HEIGHT (fun q => q) [⟨0, 1000, 500⟩]).getD 0 default).x
        < WIDTH) := by
  norm_num [tick, tickUpTo, tickStep, netDisp, wrap, WIDTH, HEIGHT,
    List.range_succ]

/-- C2 (amended): after a tick every particle's entry is its pre-wrap
value corrected by the toroidal wrap (adding or subtracting the domain
size, never clamping), and whenever the displaced coordinates lie within
one domain size of the domain, the wrapped position lies in the *closed*
intervals `[0, WIDTH]` and `[0, HEIGHT]`. -/
theorem C2_closed_interval_invariant (sq : ℚ → ℚ) (ps : List Particle) (i : ℕ)
    (h : i < ps.length)
    (hx1 : -WIDTH ≤ (preWrap WIDTH HEIGHT sq ps i).x)
    (hx2 : (preWrap WIDTH HEIGHT sq ps i).x ≤ 2 * WIDTH)
    (hy1 : -HEIGHT ≤ (preWrap WIDTH HEIGHT sq ps i).y)
    (hy2 : (preWrap WIDTH HEIGHT sq ps i).y ≤ 2 * HEIGHT) :
    (tick WIDTH HEIGHT sq ps).getD i default =
      wrap WIDTH HEIGHT (preWrap WIDTH HEIGHT sq ps i) ∧
    0 ≤ ((tick WIDTH HEIGHT sq ps).getD i default).x ∧
    ((tick WIDTH HEIGHT sq ps).getD i default).x ≤ WIDTH ∧
    0 ≤ ((tick WIDTH HEIGHT sq ps).getD i default).y ∧
    ((tick WIDTH HEIGHT sq ps).getD i default).y ≤ HEIGHT := by
  have he := getD_tick WIDTH HEIGHT sq ps i h
  have hb := wrap_bounds (preWrap WIDTH HEIGHT sq ps i) hx1 hx2 hy1 hy2
  rw [he]
  exact ⟨rfl, hb.1, hb.2.1, hb.2.2.1, hb.2.2.2⟩

theorem C2_witness :
    (tick WIDTH HEIGHT (fun q => q) [⟨0, 1000, 500⟩]).getD 0 default =
      wrap WIDTH HEIGHT (preWrap WIDTH HEIGHT (fun q => q) [⟨0, 1000, 500⟩] 0) ∧
    0 ≤ ((tick WIDTH HEIGHT (fun q => q) [⟨0, 1000, 500⟩]).getD 0 default).x ∧
    ((tick WIDTH HEIGHT (fun q => q) [⟨0, 1000, 500⟩]).getD 0 default).x ≤ WIDTH ∧
    0 ≤ ((tick WIDTH HEIGHT (fun q => q) [⟨0, 1000, 500⟩]).getD 0 default).y ∧
    ((tick WIDTH HEIGHT (fun q => q) [⟨0, 1000, 500⟩]).getD 0 default).y ≤ HEIGHT :=
  C2_closed_interval_invariant (fun q => q) [⟨0, 1000, 500⟩] 0 (by norm_num)
    (by norm_num [preWrap, tickUpTo, netDisp, WIDTH, List.range_succ])
    (by norm_num [preWrap, tickUpTo, netDisp, WIDTH, List.range_succ])
    (by norm_num [preWrap, tickUpTo, netDisp, HEIGHT, List.range_succ])
    (by norm_num [preWrap, tickUpTo, netDisp, HEIGHT, List.range_succ])

/-- C7 counterexample: in the end-to-end scenario (domain 100 by 100,
types 0 and 1 at `(10,50)` and `(90,50)`, wrapped separation 20, exact
square roots on every evaluated value), one tick does *not* move both
particles strictly closer together: particle 1 (type 1, coefficient
`c(1,0) = +K`, repulsion) moves to `x < 90`, away from the wrap seam,
its displacement magnitude differs from the closed-form `1/8`, and the
wrapped squared separation after the tick is strictly *larger* than
before. -/
theorem C7_counterexample :
    tick 100 100 sqExact [⟨0, 10, 50⟩, ⟨1, 90, 50⟩] =
      [⟨0, 79 / 8, 50⟩, ⟨1, 2272090 / 25281, 50⟩] ∧
    (2272090 / 25281 : ℚ) < 90 ∧
    90 - (2272090 / 25281 : ℚ) ≠ 1 / 8 ∧
    rSquared 100 ⟨0, 10, 50⟩ ⟨1, 90, 50⟩ <
      rSquared 100 ⟨0, 79 / 8, 50⟩ ⟨1, 2272090 / 25281, 50⟩ := by
  refine ⟨?_, by norm_num, by norm_num, ?_⟩
  · norm_num [tick, tickUpTo, tickStep, netDisp, pairTerm, rSquared, xPos, yPos,
      sel, coefficient, wrap, sqExact, COEFFICIENT, SQUARED_RADIUS_MIN,
      List.range_succ]
  · norm_num [rSquared, xPos, yPos, sel]

/-- C7 (amended): in the scenario of the spec's end-to-end test, for any
square-root function that is exact on the two evaluated values, one tick
sends the store to `[(79/8, 50), (2272090/25281, 50)]`: particle 0
(type 0, `c(0,1) = -K`, attraction) moves by exactly the closed-form
term `-1/8` computed from the pre-tick snapshot and ends strictly
closer; particle 1 (type 1, `c(1,0) = +K`, repulsion) is computed
against particle 0's already-updated position, moves strictly *away*,
with displacement magnitude different from the pre-tick closed form
`1/8`, and the final wrapped squared separation exceeds the initial
one. -/
theorem C7_scenario (sq : ℚ → ℚ) (h1 : sq 400 = 20)
    (h2 : sq (25281 / 64) = 159 / 8) :
    tick 100 100 sq [⟨0, 10, 50⟩, ⟨1, 90, 50⟩] =
      [⟨0, 79 / 8, 50⟩, ⟨1, 2272090 / 25281, 50⟩] ∧
    (79 / 8 : ℚ) =
      10 + coefficient 0 1 * (COEFFICIENT / rSquared 100 ⟨0, 10, 50⟩ ⟨1, 90, 50⟩) *
        xPos 100 ⟨0, 10, 50⟩ ⟨1, 90, 50⟩ / sq (rSquared 100 ⟨0, 10, 50⟩ ⟨1, 90, 50⟩) ∧
    rSquared 100 ⟨0, 79 / 8, 50⟩ ⟨1, 90, 50⟩ <
      rSquared 100 ⟨0, 10, 50⟩ ⟨1, 90, 50⟩ ∧
    rSquared 100 ⟨0, 10, 50⟩ ⟨1, 90, 50⟩ <
      rSquared 100 ⟨0, 79 / 8, 50⟩ ⟨1, 2272090 / 25281, 50⟩ ∧
    90 - (2272090 / 25281 : ℚ) ≠ 1 / 8 := by
  refine ⟨?_, ?_, ?_, ?_, by norm_num⟩
  · norm_num [tick, tickUpTo, tickStep, netDisp, pairTerm, rSquared, xPos, yPos,
      sel, coefficient, wrap, COEFFICIENT, SQUARED_RADIUS_MIN, List.range_succ,
      h1, h2]
  · norm_num [rSquared, xPos, yPos, sel, coefficient, COEFFICIENT, h1]
  · norm_num [rSquared, xPos, yPos, sel]
  · norm_num [rSquared, xPos, yPos, sel]

theorem C7_witness :
    tick 100 100 sqExact [⟨0, 10, 50⟩, ⟨1, 90, 50⟩] =
      [⟨0, 79 / 8, 50⟩, ⟨1, 2272090 / 25281, 50⟩] ∧
    (79 / 8 : ℚ) =
      10 + coefficient 0 1 * (COEFFICIENT / rSquared 100 ⟨0, 10, 50⟩ ⟨1, 90, 50⟩) *
        xPos 100 ⟨0, 10, 50⟩ ⟨1, 90, 50⟩ /
        sqExact (rSquared 100 ⟨0, 10, 50⟩ ⟨1, 90, 50⟩) ∧
    rSquared 100 ⟨0, 79 / 8, 50⟩ ⟨1, 90, 50⟩ <
      rSquared 100 ⟨0, 10, 50⟩ ⟨1, 90, 50⟩ ∧
    rSquared 100 ⟨0, 10, 50⟩ ⟨1, 90, 50⟩ <
      rSquared 100 ⟨0, 79 / 8, 50⟩ ⟨1, 2272090 / 25281, 50⟩ ∧
    90 - (2272090 / 25281 : ℚ) ≠ 1 / 8 :=
  C7_scenario sqExact (by norm_num [sqExact]) (by norm_num [sqExact])

/-- C8: for an ordered type pair whose two coefficients differ in sign,
the pairwise force term of `b` on `a` and of `a` on `b` differ in sign
along the separation axis: the radial component of `a`'s term (its
x-term times `a`'s own x delta) is strictly negative (attraction, toward
the other particle) while `b`'s is strictly positive (repulsion, away) --
they are not equal-and-opposite. -/
theorem C8_sign_asymmetry (W : ℚ) (sq : ℚ → ℚ) (a b : Particle)
    (hab : coefficient a.type b.type < 0) (hba : 0 < coefficient b.type a.type)
    (hra : SQUARED_RADIUS_MIN ≤ rSquared W a b)
    (hrb : SQUARED_RADIUS_MIN ≤ rSquared W b a)
    (hxa : xPos W a b ≠ 0) (hxb : xPos W b a ≠ 0)
    (hsa : 0 < sq (rSquared W a b)) (hsb : 0 < sq (rSquared W b a)) :
    (pairTerm W sq a b).1 * xPos W a b < 0 ∧
    0 < (pairTerm W sq b a).1 * xPos W b a := by
  have hCO : (0 : ℚ) < COEFFICIENT := by norm_num [COEFFICIENT]
  have hr0a : 0 < rSquared W a b :=
    lt_of_lt_of_le (by norm_num [SQUARED_RADIUS_MIN]) hra
  have hr0b : 0 < rSquared W b a :=
    lt_of_lt_of_le (by norm_num [SQUARED_RADIUS_MIN]) hrb
  constructor
  · simp only [pairTerm]
    rw [if_neg (fun hct => absurd hct.2 (not_lt.mpr hra))]
    have hring : coefficient a.type b.type * (COEFFICIENT / rSquared W a b) *
        xPos W a b / sq (rSquared W a b) * xPos W a b =
        coefficient a.type b.type * (COEFFICIENT / rSquared W a b) *
          (xPos W a b * xPos W a b) / sq (rSquared W a b) := by ring
    show coefficient a.type b.type * (COEFFICIENT / rSquared W a b) *
        xPos W a b / sq (rSquared W a b) * xPos W a b < 0
    rw [hring]
    exact div_neg_of_neg_of_pos
      (mul_neg_of_neg_of_pos
        (mul_neg_of_neg_of_pos hab (div_pos hCO hr0a))
        (mul_self_pos.mpr hxa))
      hsa
  · simp only [pairTerm]
    rw [if_neg (fun hct => absurd hct.1 (not_lt.mpr (le_of_lt hba)))]
    have hring : coefficient b.type a.type * (COEFFICIENT / rSquared W b a) *
        xPos W b a / sq (rSquared W b a) * xPos W b a =
        coefficient b.type a.type * (COEFFICIENT / rSquared W b a) *
          (xPos W b a * xPos W b a) / sq (rSquared W b a) := by ring
    show 0 < coefficient b.type a.type * (COEFFICIENT / rSquared W b a) *
        xPos W b a / sq (rSquared W b a) * xPos W b a
    rw [hring]
    exact div_pos
      (mul_pos (mul_pos hba (div_pos hCO hr0b)) (mul_self_pos.mpr hxb))
      hsb

theorem C8_witness :
    (pairTerm 100 (fun _ => 20) ⟨0, 10, 50⟩ ⟨1, 90, 50⟩).1 *
        xPos 100 ⟨0, 10, 50⟩ ⟨1, 90, 50⟩ < 0 ∧
    0 < (pairTerm 100 (fun _ => 20) ⟨1, 90, 50⟩ ⟨0, 10, 50⟩).1 *
        xPos 100 ⟨1, 90, 50⟩ ⟨0, 10, 50⟩ :=
  C8_sign_asymmetry 100 (fun _ => 20) ⟨0, 10, 50⟩ ⟨1, 90, 50⟩
    (by norm_num [coefficient]) (by norm_num [coefficient])
    (by norm_num [rSquared, xPos, yPos, sel, SQUARED_RADIUS_MIN])
    (by norm_num [rSquared, xPos, yPos, sel, SQUARED_RADIUS_MIN])
    (by norm_num [xPos, sel]) (by norm_num [xPos, sel])
    (by norm_num) (by norm_num)

end Life
